import Mathlib

/-!
Verification of the py-elevation core algorithms.

Shallow embedding of src/elevation/core.py. Elevation and distance series
(pandas Series of floats in the source) are modelled as lists of rationals;
fallible operations (Python exceptions) return Except String. Functions that
mutate their input in place are additionally given a state-passing variant
returning the post-call contents of the caller's series alongside the result.
-/

/-- Embeds pandas Series.diff(1) restricted to the entries that take part in
later sums: the leading NaN produced by diff is dropped, matching the fact
that pandas sum skips NaN. Entry i is s[i+1] - s[i]. -/
def diff1 (s : List ℚ) : List ℚ :=
  (s.zip s.tail).map (fun p => p.2 - p.1)

/-- Embeds the mask assignment diffs[diffs < 0] = 0.0 applied pointwise. -/
def clampNeg (d : ℚ) : ℚ :=
  if d < 0 then 0 else d

/-- Embeds gain_naive from src/elevation/core.py: diff the series, zero the
negative diffs, and sum. -/
def gain_naive (s : List ℚ) : ℚ :=
  ((diff1 s).map clampNeg).sum

/-- Embeds the expression -1.0 * elevation_series (pointwise negation). -/
def negate (s : List ℚ) : List ℚ :=
  s.map (fun x => -1 * x)

/-- Embeds loss_naive from src/elevation/core.py: the live code line is
return -gain_naive(-1.0 * elevation_series). -/
def loss_naive (s : List ℚ) : ℚ :=
  -(gain_naive (negate s))

/-- One step of the threshold_filter loop: the updated running reference after
seeing sample e with current reference ref. -/
def tfNext (t ref e : ℚ) : ℚ :=
  if |e - ref| > t then e else ref

/-- The loop of threshold_filter: iterate over the samples, updating the
reference and appending it after each sample. -/
def tfLoop (t : ℚ) : ℚ → List ℚ → List ℚ
  | _, [] => []
  | ref, e :: rest => tfNext t ref e :: tfLoop t (tfNext t ref e) rest

/-- Embeds threshold_filter from src/elevation/core.py. The source reads
elevation_series.iloc[0] first, which raises IndexError on an empty series
(there is no explicit validation); then it loops over every sample with the
reference initialised to the first sample. -/
def threshold_filter (s : List ℚ) (t : ℚ) : Except String (List ℚ) :=
  match s with
  | [] => .error "IndexError"
  | e0 :: _ => .ok (tfLoop t e0 s)

/-- State-passing variant of threshold_filter: the source assigns
elevation_series.iloc[:] = elev_array and returns the same series object, so
the returned series and the post-call contents of the input coincide. -/
def threshold_filter_st (s : List ℚ) (t : ℚ) :
    Except String (List ℚ × List ℚ) :=
  match s with
  | [] => .error "IndexError"
  | e0 :: _ =>
    let out := tfLoop t e0 s
    .ok (out, out)

/-- Embeds flatten_series from src/elevation/core.py: every entry becomes the
mean of the input. -/
def flatten_series (s : List ℚ) : List ℚ :=
  s.map (fun _ => s.sum / (s.length : ℚ))

/-- State-passing variant of flatten_series: the source assigns
elevation_series.iloc[:] = elevation_series.mean() and returns the same
object, so the result and the post-call input contents coincide. -/
def flatten_series_st (s : List ℚ) : List ℚ × List ℚ :=
  (flatten_series s, flatten_series s)

/-- Embeds scipy.signal.savgol_filter as called by this repository. The
per-position least-squares fit is external library code, abstracted here as
the parameter fit; the validation and length contract follows the spec,
section 4.5 (window length a positive odd integer, polynomial order less than
the window length, series at least as long as the window), which matches the
ValueError conditions of the library routine. -/
def savgol_filter (fit : List ℚ → ℕ → ℚ) (s : List ℚ)
    (window_len polyorder : ℕ) : Except String (List ℚ) :=
  if window_len % 2 = 0 then .error "ValueError: window_length must be odd"
  else if window_len ≤ polyorder then
    .error "ValueError: polyorder must be less than window_length"
  else if s.length < window_len then
    .error "ValueError: window_length is too large for input"
  else .ok ((List.range s.length).map (fit s))

/-- Embeds time_smooth from src/elevation/core.py: copy the series, run the
Savitzky-Golay filter on it, and convert any ValueError into the single
exception with message Elevation series too short to smooth. The sample_len
argument is accepted and unused, exactly as in the source. -/
def time_smooth (fit : List ℚ → ℕ → ℚ) (s : List ℚ) (sample_len : ℚ)
    (window_len polyorder : ℕ) : Except String (List ℚ) :=
  match savgol_filter fit s window_len polyorder with
  | .error _ => .error "Elevation series too short to smooth"
  | .ok r => .ok r

/-- State-passing variant of time_smooth: the source works on a copy
(elevation_series.copy()), so the caller's series is unchanged whether the
call succeeds or raises. -/
def time_smooth_st (fit : List ℚ → ℕ → ℚ) (s : List ℚ) (sample_len : ℚ)
    (window_len polyorder : ℕ) : Except String (List ℚ) × List ℚ :=
  (time_smooth fit s sample_len window_len polyorder, s)

/-- State-passing variant of gain_naive: the source builds a fresh diffs
series and mutates only that, leaving the input unchanged. -/
def gain_naive_st (s : List ℚ) : ℚ × List ℚ :=
  (gain_naive s, s)

/-- State-passing variant of loss_naive: the source only builds the fresh
series -1.0 * elevation_series, leaving the input unchanged. -/
def loss_naive_st (s : List ℚ) : ℚ × List ℚ :=
  (loss_naive s, s)

/-- Embeds numpy.linspace(a, b, num) as used by distance_smooth: num evenly
spaced points from a to b inclusive. A negative num raises ValueError (the
number of samples must be non-negative); num = 0 yields the empty array. -/
def linspace (a b : ℚ) (num : ℤ) : Except String (List ℚ) :=
  if num < 0 then .error "ValueError: Number of samples must be non-negative"
  else if num = 0 then .ok []
  else if num = 1 then .ok [a]
  else .ok ((List.range num.toNat).map (fun i => a + (b - a) * i / (num - 1)))

/-- Insert a coordinate pair into a list sorted by first component. -/
def insertByFst (p : ℚ × ℚ) : List (ℚ × ℚ) → List (ℚ × ℚ)
  | [] => [p]
  | q :: rest => if p.1 ≤ q.1 then p :: q :: rest else q :: insertByFst p rest

/-- Sort coordinate pairs by first component (scipy.interpolate.interp1d is
constructed with assume_sorted=False, so it sorts its x argument). -/
def sortByFst : List (ℚ × ℚ) → List (ℚ × ℚ)
  | [] => []
  | p :: rest => insertByFst p (sortByFst rest)

/-- Evaluate piecewise-linear interpolation through a list of pairs sorted by
first component. -/
def evalLinear : List (ℚ × ℚ) → ℚ → ℚ
  | [], _ => 0
  | [p], _ => p.2
  | p :: q :: rest, x =>
    if x ≤ q.1 then p.2 + (q.2 - p.2) * (x - p.1) / (q.1 - p.1)
    else evalLinear (q :: rest) x

/-- Embeds scipy.interpolate.interp1d with kind equal to linear and default
options, applied to the points pts: x and y must have equal length and at
least 2 entries, the coordinate pairs are sorted by x (assume_sorted is
False by default, so a non-monotonic x is sorted rather than rejected), and
evaluation outside the sorted x range raises (bounds_error). -/
def interp_linear (xs ys pts : List ℚ) : Except String (List ℚ) :=
  if xs.length ≠ ys.length then
    .error "ValueError: x and y arrays must be equal in length"
  else if xs.length < 2 then
    .error "ValueError: x must have at least 2 entries"
  else
    let pairs := sortByFst (xs.zip ys)
    let lo := (pairs.headD (0, 0)).1
    let hi := (pairs.getLastD (0, 0)).1
    if pts.all (fun p => decide (lo ≤ p) && decide (p ≤ hi)) then
      .ok (pts.map (evalLinear pairs))
    else .error "ValueError: a value in x_new is out of the interpolation range"

/-- Embeds distance_smooth from src/elevation/core.py: read the first and
last distances (IndexError on an empty distance series), build the uniform
grid of ceil((last - first) / sample_len) + 1 points, linearly interpolate
the elevations onto the grid, run the Savitzky-Golay filter (no try/except
here, so its errors propagate), and back-interpolate to the original
distances with a quadratic spline. The quadratic spline evaluator is external
library code, abstracted as the parameter qfit; its construction requires at
least 3 grid points (spline order 2), and with fill_value extrapolate it
evaluates everywhere. No validation of series lengths or distance
monotonicity is performed by the function itself; the only earlier failures
are the Python division by zero when sample_len is 0 (before the grid count
exists) and the grid constructor's ValueError when the count is negative. -/
def distance_smooth (fit : List ℚ → ℕ → ℚ) (qfit : List ℚ → List ℚ → ℚ → ℚ)
    (distance_series elevation_series : List ℚ) (sample_len : ℚ)
    (window_len polyorder : ℕ) : Except String (List ℚ) :=
  match distance_series with
  | [] => .error "IndexError"
  | d0 :: _ =>
    let dlast := distance_series.getLastD 0
    if sample_len = 0 then .error "ZeroDivisionError"
    else
      let n_sample : ℤ := ⌈(dlast - d0) / sample_len⌉
      match linspace d0 dlast (n_sample + 1) with
      | .error e => .error e
      | .ok distance_ds =>
        match interp_linear distance_series elevation_series distance_ds with
        | .error e => .error e
        | .ok elevation_ds =>
          match savgol_filter fit elevation_ds window_len polyorder with
          | .error e => .error e
          | .ok elevation_sg =>
            if distance_ds.length < 3 then
              .error "ValueError: quadratic interpolation requires at least 3 points"
            else
              .ok (distance_series.map (qfit distance_ds elevation_sg))

/-- State-passing variant of distance_smooth: the source never writes to
either input series (the final result is a freshly constructed series), so
both post-call contents equal the inputs. -/
def distance_smooth_st (fit : List ℚ → ℕ → ℚ) (qfit : List ℚ → List ℚ → ℚ → ℚ)
    (distance_series elevation_series : List ℚ) (sample_len : ℚ)
    (window_len polyorder : ℕ) :
    Except String (List ℚ) × List ℚ × List ℚ :=
  (distance_smooth fit qfit distance_series elevation_series sample_len
      window_len polyorder,
   distance_series, elevation_series)

/-- A concrete instantiation of the abstracted Savitzky-Golay fit, used to
evaluate the pipeline on concrete inputs. -/
def fitId : List ℚ → ℕ → ℚ := fun s i => s.getD i 0

/-- Modelled from the spec: gain_threshold in src/elevation/core.py consists
of a docstring only (the spec flags the algorithm as unfinished in the
reference), so the accumulation policy of section 4.6 is modelled here.
A running reference starts at the first sample; for each subsequent sample,
a rise above the reference exceeding the threshold is added to the gain and
resets the reference, a drop below the reference resets the reference
without credit, and anything else leaves the reference unchanged. Empty
series fail with InvalidInput per section 4.6. -/
def gtStep (t : ℚ) (st : ℚ × ℚ) (x : ℚ) : ℚ × ℚ :=
  if x - st.1 > t then (x, st.2 + (x - st.1))
  else if x - st.1 < 0 then (x, st.2)
  else st

/-- Modelled from the spec: the gain_threshold entry point, folding gtStep
over the samples after the first with the reference initialised to the first
sample and the gain to zero. -/
def gain_threshold (s : List ℚ) (t : ℚ) : Except String ℚ :=
  match s with
  | [] => .error "InvalidInput"
  | x :: rest => .ok (rest.foldl (gtStep t) (x, 0)).2

/-- Direct recursive form of the section 4.6 accumulation policy, written
from the claim text: given the current reference, the gain contributed by
the remaining samples. -/
def gtRec (t : ℚ) : ℚ → List ℚ → ℚ
  | _, [] => 0
  | ref, x :: rest =>
    if x - ref > t then (x - ref) + gtRec t x rest
    else if x - ref < 0 then gtRec t x rest
    else gtRec t ref rest

/-- Embeds the mask assignment diffs[diffs > 0] = 0.0 of the commented-out
body of loss_naive. -/
def clampPos (d : ℚ) : ℚ :=
  if d > 0 then 0 else d

/-- Embeds the commented-out body of loss_naive in src/elevation/core.py:
diff the series, zero the positive diffs, and return the negated sum. -/
def loss_naive_commented (s : List ℚ) : ℚ :=
  -(((diff1 s).map clampPos).sum)

/-! ## Supporting lemmas about the naive gain and loss -/

theorem clampNeg_eq_max (d : ℚ) : clampNeg d = max d 0 := by
  unfold clampNeg
  rcases lt_or_le d 0 with h | h
  · rw [if_pos h, max_eq_right h.le]
  · rw [if_neg (not_lt.mpr h), max_eq_left h]

theorem gain_naive_nil : gain_naive [] = 0 := by
  simp [gain_naive, diff1]

theorem gain_naive_singleton (x : ℚ) : gain_naive [x] = 0 := by
  simp [gain_naive, diff1]

theorem gain_naive_cons_cons (x y : ℚ) (l : List ℚ) :
    gain_naive (x :: y :: l) = clampNeg (y - x) + gain_naive (y :: l) := by
  simp [gain_naive, diff1]

theorem clampNeg_add_clampPos (d : ℚ) : clampNeg d + clampPos d = d := by
  unfold clampNeg clampPos
  rcases lt_trichotomy d 0 with h | h | h
  · rw [if_pos h, if_neg (by linarith)]; ring
  · simp [h]
  · rw [if_neg (by linarith), if_pos h]; ring

theorem sum_clampNeg_add_sum_clampPos (ds : List ℚ) :
    (ds.map clampNeg).sum + (ds.map clampPos).sum = ds.sum := by
  induction ds with
  | nil => simp
  | cons d l ih =>
    simp only [List.map_cons, List.sum_cons]
    have := clampNeg_add_clampPos d
    linarith

theorem diff1_sum_telescope (s : List ℚ) :
    (diff1 s).sum = s.getLastD 0 - s.headD 0 := by
  induction s with
  | nil => simp [diff1]
  | cons x rest ih =>
    cases rest with
    | nil => simp [diff1]
    | cons y l =>
      have hd : diff1 (x :: y :: l) = (y - x) :: diff1 (y :: l) := by
        simp [diff1]
      rw [hd, List.sum_cons, ih]
      rw [List.getLastD_eq_getLast?, List.getLastD_eq_getLast?,
        List.getLast?_cons_cons]
      simp

/-- The commented-out loss obeys the telescoping identity together with the
naive gain. -/
theorem gain_sub_commented_telescope (s : List ℚ) :
    gain_naive s - loss_naive_commented s = s.getLastD 0 - s.headD 0 := by
  unfold gain_naive loss_naive_commented
  rw [← diff1_sum_telescope, ← sum_clampNeg_add_sum_clampPos (diff1 s)]
  ring

theorem diff1_negate (s : List ℚ) :
    diff1 (negate s) = (diff1 s).map (fun d => -d) := by
  unfold diff1 negate
  induction s with
  | nil => simp
  | cons x rest ih =>
    cases rest with
    | nil => simp
    | cons y l =>
      simp only [List.map_cons, List.tail_cons, List.zip_cons_cons] at ih ⊢
      rw [ih]
      congr 1
      ring

theorem clampNeg_neg (d : ℚ) : clampNeg (-d) = -(clampPos d) := by
  unfold clampNeg clampPos
  rcases lt_trichotomy d 0 with h | h | h
  · rw [if_neg (by linarith), if_neg (by linarith)]
  · simp [h]
  · rw [if_pos (by linarith), if_pos h]; ring

/-- The naive gain of the negated series equals the loss computed by the
commented-out body of loss_naive (the non-negative total drop). -/
theorem gain_naive_negate_eq_commented (s : List ℚ) :
    gain_naive (negate s) = loss_naive_commented s := by
  unfold gain_naive loss_naive_commented
  rw [diff1_negate]
  induction (diff1 s) with
  | nil => simp
  | cons d l ih =>
    simp only [List.map_cons, List.sum_cons, neg_add_rev] at ih ⊢
    rw [clampNeg_neg]
    linarith

/-- The live body of loss_naive is the pointwise negation of its own
commented-out body: the extra leading minus sign flips the sign of the
returned loss. -/
theorem loss_naive_eq_neg_commented (s : List ℚ) :
    loss_naive s = -(loss_naive_commented s) := by
  unfold loss_naive
  rw [gain_naive_negate_eq_commented]

/-! ## C1: lossNaive versus gainNaive of the negated series -/

/-- C1: the code violates the claim. The claim states that lossNaive(s)
equals gainNaive(negate(s)) and in particular lossNaive([0,1,2,1,0]) = 2;
the live code returns -gain_naive(-1.0 * series), which evaluates to -2 on
[0,1,2,1,0] while gain_naive(negate([0,1,2,1,0])) evaluates to 2. -/
theorem loss_naive_sign_bug_eval :
    loss_naive [0, 1, 2, 1, 0] = -2 ∧
    gain_naive (negate [0, 1, 2, 1, 0]) = 2 ∧
    loss_naive [0, 1, 2, 1, 0] ≠ gain_naive (negate [0, 1, 2, 1, 0]) := by
  refine ⟨?_, ?_, ?_⟩ <;>
    norm_num [loss_naive, gain_naive, negate, diff1, clampNeg]

/-! ## C4: the telescoping identity -/

/-- C4: the code violates the claim. With the live loss_naive, the
difference gain_naive(s) - loss_naive(s) on s = [0,1,2,1,0] is 2 - (-2) = 4,
while s[last] - s[first] = 0. -/
theorem telescoping_identity_fails_eval :
    gain_naive [0, 1, 2, 1, 0] - loss_naive [0, 1, 2, 1, 0] = 4 ∧
    ([0, 1, 2, 1, 0] : List ℚ).getLastD 0 -
      ([0, 1, 2, 1, 0] : List ℚ).headD 0 = 0 ∧
    (4 : ℚ) ≠ 0 := by
  refine ⟨?_, ?_, ?_⟩ <;>
    norm_num [loss_naive, gain_naive, negate, diff1, clampNeg]

/-! ## C7: gainNaive as a sum of clamped consecutive differences -/

theorem gain_naive_sum_formula (s : List ℚ) :
    gain_naive s =
      ∑ i ∈ Finset.range (s.length - 1),
        max (s.getD (i + 1) 0 - s.getD i 0) 0 := by
  induction s with
  | nil => simp [gain_naive, diff1]
  | cons x rest ih =>
    cases rest with
    | nil => simp [gain_naive, diff1]
    | cons y l =>
      rw [gain_naive_cons_cons, ih, clampNeg_eq_max]
      simp only [List.length_cons, Nat.add_sub_cancel]
      rw [Finset.sum_range_succ']
      simp only [List.getD_cons_succ, List.getD_cons_zero]
      ring

/-- C7: confirmed. gain_naive equals the sum over consecutive pairs of
max(e[i] - e[i-1], 0), the first sample contributing nothing, and on
[0,1,2,1,0] it evaluates to 2. -/
theorem gain_naive_eq_sum_max :
    (∀ s : List ℚ, gain_naive s =
      ∑ i ∈ Finset.range (s.length - 1),
        max (s.getD (i + 1) 0 - s.getD i 0) 0) ∧
    gain_naive [0, 1, 2, 1, 0] = 2 := by
  refine ⟨gain_naive_sum_formula, ?_⟩
  norm_num [gain_naive, diff1, clampNeg]

/-! ## C10: non-negativity of gainNaive -/

/-- C10: confirmed. gain_naive is non-negative on every series and returns 0
on every single-element series. -/
theorem gain_naive_nonneg_and_singleton_zero :
    (∀ s : List ℚ, 0 ≤ gain_naive s) ∧ (∀ x : ℚ, gain_naive [x] = 0) := by
  constructor
  · intro s
    apply List.sum_nonneg
    intro a ha
    obtain ⟨d, _, rfl⟩ := List.mem_map.mp ha
    unfold clampNeg
    split
    · exact le_refl 0
    · exact not_lt.mp (by assumption)
  · exact gain_naive_singleton

/-! ## C2: the threshold-gated gain accumulator (modelled from the spec) -/

theorem foldl_gtStep_snd (t : ℚ) (rest : List ℚ) :
    ∀ ref g : ℚ, (rest.foldl (gtStep t) (ref, g)).2 = g + gtRec t ref rest := by
  induction rest with
  | nil => intro ref g; simp [gtRec]
  | cons x l ih =>
    intro ref g
    simp only [List.foldl_cons, gtRec]
    by_cases h1 : x - ref > t
    · rw [if_pos h1]
      have hs : gtStep t (ref, g) x = (x, g + (x - ref)) := by
        unfold gtStep
        rw [if_pos h1]
      rw [hs, ih]
      ring
    · rw [if_neg h1]
      by_cases h2 : x - ref < 0
      · rw [if_pos h2]
        have hs : gtStep t (ref, g) x = (x, g) := by
          unfold gtStep
          rw [if_neg h1, if_pos h2]
        rw [hs, ih]
      · rw [if_neg h2]
        have hs : gtStep t (ref, g) x = (ref, g) := by
          unfold gtStep
          rw [if_neg h1, if_neg h2]
        rw [hs, ih]

/-- C2: confirmed against the spec model. gain_threshold starts the running
reference at the first sample and the gain at zero, and for each subsequent
sample adds (sample - reference) and resets the reference when the rise
exceeds the threshold, resets the reference without adding when the sample
drops below the reference, and otherwise leaves the reference unchanged,
returning the accumulated gain; gtRec is that policy written as a direct
recursion over the samples, and a concrete five-sample run evaluates to 20
with threshold 5. -/
theorem gain_threshold_spec :
    (∀ (t x : ℚ) (rest : List ℚ),
      gain_threshold (x :: rest) t = .ok (gtRec t x rest)) ∧
    (∀ t : ℚ, gain_threshold [] t = .error "InvalidInput") ∧
    gain_threshold [0, 10, 12, 11, 20] 5 = .ok 20 := by
  refine ⟨?_, fun t => rfl, ?_⟩
  · intro t x rest
    simp only [gain_threshold]
    rw [foldl_gtStep_snd, zero_add]
  · norm_num [gain_threshold, gtStep]

/-! ## C5: the threshold filter algorithm -/

theorem tfLoop_length (t : ℚ) (l : List ℚ) :
    ∀ ref : ℚ, (tfLoop t ref l).length = l.length := by
  induction l with
  | nil => intro ref; rfl
  | cons e rest ih =>
    intro ref
    simp [tfLoop, ih]

theorem tfNext_self (t e : ℚ) : tfNext t e e = e := by
  simp [tfNext]

theorem tfLoop_getD_succ (t : ℚ) (l : List ℚ) :
    ∀ (ref : ℚ) (i : ℕ), i + 1 < l.length →
      (tfLoop t ref l).getD (i + 1) 0 =
        tfNext t ((tfLoop t ref l).getD i 0) (l.getD (i + 1) 0) := by
  induction l with
  | nil => intro ref i h; simp at h
  | cons e rest ih =>
    intro ref i h
    cases i with
    | zero =>
      cases rest with
      | nil => simp at h
      | cons e1 rest1 => simp [tfLoop]
    | succ j =>
      have h' : j + 1 < rest.length := by
        simpa [List.length_cons] using h
      simpa [tfLoop] using ih (tfNext t ref e) j h'

/-- The property claimed of thresholdFilter: same length as the input, first
output equal to the first sample (the initial reference), and each later
output equal to the previous output when the sample stays within the
threshold of it, and to the sample itself when the absolute difference
exceeds the threshold. -/
def TFSpec (t : ℚ) (s out : List ℚ) : Prop :=
  out.length = s.length ∧
  out.headD 0 = s.headD 0 ∧
  ∀ i, i + 1 < s.length →
    out.getD (i + 1) 0 =
      if |s.getD (i + 1) 0 - out.getD i 0| > t then s.getD (i + 1) 0
      else out.getD i 0

/-- C5: confirmed. On every non-empty series and positive threshold,
threshold_filter succeeds and its output satisfies TFSpec, and on
[0,1,2,3,10,11] with threshold 5 it returns [0,0,0,0,10,10]. -/
theorem threshold_filter_correct (s : List ℚ) (t : ℚ) (hs : s ≠ [])
    (ht : 0 < t) :
    (∃ out, threshold_filter s t = .ok out ∧ TFSpec t s out) ∧
    threshold_filter [0, 1, 2, 3, 10, 11] 5 = .ok [0, 0, 0, 0, 10, 10] := by
  constructor
  · obtain ⟨e0, rest, rfl⟩ := List.exists_cons_of_ne_nil hs
    refine ⟨tfLoop t e0 (e0 :: rest), rfl, ?_, ?_, ?_⟩
    · exact tfLoop_length t (e0 :: rest) e0
    · simp [tfLoop, tfNext_self]
    · intro i h
      have hrec := tfLoop_getD_succ t (e0 :: rest) e0 i h
      rw [hrec]
      rfl
  · norm_num [threshold_filter, tfLoop, tfNext, abs]

/-- Witness for C5 at the concrete series [3] with threshold 1. -/
theorem threshold_filter_correct_witness :
    (([3] : List ℚ) ≠ [] ∧ (0 : ℚ) < 1) ∧
    (∃ out, threshold_filter [3] 1 = .ok out ∧ TFSpec 1 [3] out) ∧
    threshold_filter [0, 1, 2, 3, 10, 11] 5 = .ok [0, 0, 0, 0, 10, 10] :=
  ⟨⟨by simp, by norm_num⟩, threshold_filter_correct [3] 1 (by simp) (by norm_num)⟩

/-! ## C6: when the threshold filter fails -/

/-- C6: the code violates the claim. The claim says threshold_filter fails
with InvalidInput when threshold is non-positive; with threshold 0 (which is
not positive) and the non-empty series [0, 1] the code succeeds and returns
[0, 1]. -/
theorem threshold_filter_nonpos_threshold_ok :
    threshold_filter [0, 1] 0 = .ok [0, 1] ∧ ¬ ((0 : ℚ) > 0) := by
  constructor
  · norm_num [threshold_filter, tfLoop, tfNext, abs]
  · norm_num

/-- C6 amended: threshold_filter performs no validation; it fails (with an
IndexError from reading the first sample, not a validated InvalidInput)
exactly when the series is empty, and succeeds on every non-empty series for
every threshold, including non-positive ones. -/
theorem threshold_filter_ok_iff_nonempty (s : List ℚ) (t : ℚ) :
    (∃ out, threshold_filter s t = .ok out) ↔ s ≠ [] := by
  cases s with
  | nil => simp [threshold_filter]
  | cons e rest => simp [threshold_filter]

/-- Witness for C6 amended at the concrete series [3] with threshold 1. -/
theorem threshold_filter_ok_iff_nonempty_witness :
    ∃ out, threshold_filter [3] 1 = .ok out :=
  (threshold_filter_ok_iff_nonempty [3] 1).mpr (by simp)

/-! ## C9: when time smoothing fails -/

/-- C9: confirmed. time_smooth raises the series-too-short exception whenever
the series is shorter than the window length, and for valid parameters (odd
window, polynomial order below the window length) on a long-enough series it
returns a smoothed series of the same length. The per-window least-squares
fit of the external filter routine is universally quantified. -/
theorem time_smooth_too_short_iff (fit : List ℚ → ℕ → ℚ) (s : List ℚ)
    (sl : ℚ) (w p : ℕ) :
    (s.length < w →
      time_smooth fit s sl w p = .error "Elevation series too short to smooth") ∧
    (w % 2 = 1 → p < w → w ≤ s.length →
      ∃ r, time_smooth fit s sl w p = .ok r ∧ r.length = s.length) := by
  constructor
  · intro h
    unfold time_smooth savgol_filter
    by_cases h1 : w % 2 = 0
    · rw [if_pos h1]
    · rw [if_neg h1]
      by_cases h2 : w ≤ p
      · rw [if_pos h2]
      · rw [if_neg h2, if_pos h]
  · intro h1 h2 h3
    have e1 : ¬ w % 2 = 0 := by omega
    have e2 : ¬ w ≤ p := by omega
    have e3 : ¬ s.length < w := by omega
    refine ⟨(List.range s.length).map (fit s), ?_, by simp⟩
    unfold time_smooth savgol_filter
    rw [if_neg e1, if_neg e2, if_neg e3]

/-- Witness for C9: a three-sample series is too short for window 5 and long
enough for window 3 with polynomial order 2. -/
theorem time_smooth_too_short_iff_witness :
    time_smooth fitId [1, 2, 3] 1 5 2 =
      .error "Elevation series too short to smooth" ∧
    ∃ r, time_smooth fitId [1, 2, 3] 1 3 2 = .ok r ∧ r.length = 3 := by
  constructor
  · exact (time_smooth_too_short_iff fitId [1, 2, 3] 1 5 2).1 (by norm_num)
  · exact (time_smooth_too_short_iff fitId [1, 2, 3] 1 3 2).2 (by norm_num)
      (by norm_num) (by norm_num)

/-! ## C3: which operations mutate their input -/

/-- C3: the code violates the claim. threshold_filter writes the filtered
values back into the caller's series: after the call on [0,1,2,3,10,11] with
threshold 5 the caller's series holds [0,0,0,0,10,10], which differs from
the original input. -/
theorem threshold_filter_mutates_input :
    threshold_filter_st [0, 1, 2, 3, 10, 11] 5 =
      .ok ([0, 0, 0, 0, 10, 10], [0, 0, 0, 0, 10, 10]) ∧
    ([0, 0, 0, 0, 10, 10] : List ℚ) ≠ [0, 1, 2, 3, 10, 11] := by
  constructor
  · norm_num [threshold_filter_st, tfLoop, tfNext, abs]
  · norm_num

/-- C3 amended: threshold_filter and flatten_series overwrite the caller's
series in place, so the post-call contents of the input equal the returned
series; time_smooth (which copies), distance_smooth, gain_naive and
loss_naive leave their inputs unchanged. -/
theorem mutation_amended :
    (∀ (s : List ℚ) (t : ℚ) (r post : List ℚ),
      threshold_filter_st s t = .ok (r, post) → post = r) ∧
    (∀ s : List ℚ, (flatten_series_st s).2 = (flatten_series_st s).1) ∧
    (∀ (fit : List ℚ → ℕ → ℚ) (s : List ℚ) (sl : ℚ) (w p : ℕ),
      (time_smooth_st fit s sl w p).2 = s) ∧
    (∀ (fit : List ℚ → ℕ → ℚ) (qfit : List ℚ → List ℚ → ℚ → ℚ)
      (d e : List ℚ) (sl : ℚ) (w p : ℕ),
      (distance_smooth_st fit qfit d e sl w p).2 = (d, e)) ∧
    (∀ s : List ℚ, (gain_naive_st s).2 = s) ∧
    (∀ s : List ℚ, (loss_naive_st s).2 = s) := by
  refine ⟨?_, fun s => rfl, fun fit s sl w p => rfl,
    fun fit qfit d e sl w p => rfl, fun s => rfl, fun s => rfl⟩
  intro s t r post h
  cases s with
  | nil => exact absurd h (by simp [threshold_filter_st])
  | cons e0 rest =>
    simp only [threshold_filter_st, Except.ok.injEq, Prod.mk.injEq] at h
    rw [← h.1, ← h.2]

/-- Witness for C3 amended: on [0, 9] with threshold 5 the call succeeds and
the post-call input contents coincide with the returned series. -/
theorem mutation_amended_witness :
    ([0, 9] : List ℚ) = [0, 9] ∧
    threshold_filter_st [0, 9] 5 = .ok ([0, 9], [0, 9]) := by
  have h : threshold_filter_st [0, 9] 5 = .ok ([0, 9], [0, 9]) := by
    norm_num [threshold_filter_st, tfLoop, tfNext, abs]
  exact ⟨mutation_amended.1 [0, 9] 5 [0, 9] [0, 9] h, h⟩

/-! ## C8: validation behavior of distance smoothing -/

